import Mathlib

/-!
# Solo5 bring-up layer: TLS layout/initialisation and the Muen boot sequencer

A shallow embedding of `bindings/tls.c` and of `_start` in
`bindings/muen/start.c`, followed by theorems about them.

Machine integers (`uintptr_t`, `size_t`) are natural numbers reduced modulo
`2 ^ 64` after every arithmetic operation.  Memory is a byte-addressed
function; the platform and the boot collaborators are parameters.
-/

namespace Solo5

/-! ## Data model -/

/-- Number of values of `uintptr_t` and `size_t` on the supported 64-bit targets. -/
abbrev UINTPTR_MOD : Nat := 2 ^ 64

/-- The two branches of the architecture `#if` in `tls.c`:
`II` is selected by `__x86_64__` and `__powerpc64__`, `I` by `__aarch64__`. -/
inductive Variant where
  | I
  | II
  deriving DecidableEq, Repr

/-- The linker-provided symbols `_stdata`, `_ltdata` and `_ltbss`, as the
address values they denote. -/
structure Link where
  _stdata : Nat
  _ltdata : Nat
  _ltbss : Nat
  deriving DecidableEq, Repr

/-- Macro `#define TDATA ((void*)_stdata)`. -/
def TDATA (l : Link) : Nat := l._stdata

/-- Macro `#define LTDATA ((size_t)_ltdata)`. -/
def LTDATA (l : Link) : Nat := l._ltdata

/-- Macro `#define LTBSS ((size_t)_ltbss)`. -/
def LTBSS (l : Link) : Nat := l._ltbss

/-- Size `sizeof(struct tcb)`: one pointer (`tp`) for Variant II, two pointers
(`tp`, `pad`) for Variant I; pointers are 8 bytes. -/
def sizeof_tcb : Variant → Nat
  | .II => 8
  | .I => 8 + 8

/-- The result codes of `solo5_result_t`, declared in `solo5.h`. -/
inductive solo5_result_t where
  | SOLO5_R_OK
  | SOLO5_R_AGAIN
  | SOLO5_R_EINVAL
  | SOLO5_R_EUNSPEC
  deriving DecidableEq, Repr

open solo5_result_t

/-- Byte-addressed memory: the byte stored at each address. -/
abbrev Mem : Type := Nat → Nat

/-- A single byte store `*(unsigned char *)a = b`. -/
def write_byte (m : Mem) (a b : Nat) : Mem :=
  fun x => if x = a then b else m x

/-- The byte of the 64-bit value `v` that is stored at offset `i` (`0 ≤ i < 8`)
of its object representation, in the byte order of the target
(`be = true`: most significant byte first). -/
def uintptr_byte (be : Bool) (v i : Nat) : Nat :=
  if be then (v / 256 ^ (7 - i)) % 256 else (v / 256 ^ i) % 256

/-- The store `*(uintptr_t *)p = v`: eight byte stores at `p .. p + 7`. -/
def store_uintptr (be : Bool) (m : Mem) (p v : Nat) : Mem :=
  (List.range 8).foldl
    (fun mem i => write_byte mem ((p + i) % UINTPTR_MOD) (uintptr_byte be v i)) m

/-- The load `*(uintptr_t *)p`: the value whose representation is the eight
bytes at `p .. p + 7`. -/
def load_uintptr (be : Bool) (m : Mem) (p : Nat) : Nat :=
  ((List.range 8).map
    (fun i => m ((p + i) % UINTPTR_MOD) * 256 ^ (if be then 7 - i else i))).sum

/-- Modelled from the spec: `memcpy` is defined outside the given sources; the
spec says it "copies `tdata_length` bytes from the link-time-initialized
template into the computed data offset".  It is the ascending byte loop
`for (i = 0; i < n; i++) dest[i] = src[i];`. -/
def memcpy (m : Mem) (dest src : Nat) : Nat → Mem
  | 0 => m
  | n + 1 =>
    let m1 := memcpy m dest src n
    write_byte m1 ((dest + n) % UINTPTR_MOD) (m1 ((src + n) % UINTPTR_MOD))

/-! ## `tls.c` -/

/-- The `_solo5_tls_tp_offset(x)` of `tls.c`: `(x + LTDATA + LTBSS)` for
Variant II, `(x)` for Variant I. -/
def _solo5_tls_tp_offset (v : Variant) (l : Link) (x : Nat) : Nat :=
  match v with
  | .II => ((x + LTDATA l) % UINTPTR_MOD + LTBSS l) % UINTPTR_MOD
  | .I => x

/-- The `_solo5_tls_data_offset(x)` of `tls.c`: `(x)` for Variant II,
`(x + sizeof(struct tcb))` for Variant I. -/
def _solo5_tls_data_offset (v : Variant) (x : Nat) : Nat :=
  match v with
  | .II => x
  | .I => (x + sizeof_tcb .I) % UINTPTR_MOD

/-- Function `size_t solo5_tls_size()`. -/
def solo5_tls_size (v : Variant) (l : Link) : Nat :=
  ((LTDATA l + LTBSS l) % UINTPTR_MOD + sizeof_tcb v) % UINTPTR_MOD

/-- Function `uintptr_t solo5_tls_tp_offset(uintptr_t tls)`. -/
def solo5_tls_tp_offset (v : Variant) (l : Link) (tls : Nat) : Nat :=
  _solo5_tls_tp_offset v l tls

/-- Function `solo5_result_t solo5_tls_init(uintptr_t tls)`, on an explicit memory:
returns the result code and the memory after the call. -/
def solo5_tls_init (v : Variant) (be : Bool) (l : Link) (tls : Nat) (m : Mem) :
    solo5_result_t × Mem :=
  if tls = 0 then (SOLO5_R_EINVAL, m)
  else
    let tmp := _solo5_tls_tp_offset v l tls
    let m1 := store_uintptr be m tmp (_solo5_tls_tp_offset v l tls)
    let m2 := memcpy m1 (_solo5_tls_data_offset v tls) (TDATA l) (LTDATA l)
    (SOLO5_R_OK, m2)

/-- Function `solo5_result_t solo5_set_tls_base(uintptr_t base)`.  The platform
capability `platform_set_tls_base` is a parameter acting on a platform state
`σ` and returning the `int` return code. -/
def solo5_set_tls_base {σ : Type} (platform_set_tls_base : Nat → σ → Int × σ)
    (base : Nat) (s : σ) : solo5_result_t × σ :=
  let r := platform_set_tls_base base s
  let rc := r.1
  (if rc = 0 then SOLO5_R_OK else SOLO5_R_EINVAL, r.2)

/-! ## `muen/start.c` -/

/-- The fields of `struct solo5_start_info` (declared in `solo5.h`) that
`_start` assigns: the parsed command line and the heap boundary. -/
structure solo5_start_info where
  cmdline : Nat
  heap_start : Nat
  heap_size : Nat
  deriving DecidableEq, Repr

/-- The levels of `log_level_t`, declared in `bindings.h`. -/
inductive log_level_t where
  | ERROR
  | WARN
  | INFO
  | DEBUG
  deriving DecidableEq, Repr

/-- A variadic argument of `log`: a string (`%s`) or an unsigned number (`%04x`). -/
inductive log_arg where
  | str (s : String)
  | uint (n : Nat)
  deriving DecidableEq, Repr

/-- The function calls of `_start`, with the arguments passed by value. -/
inductive Call where
  | crt_init_ssp
  | crt_init_tls
  | console_init
  | cpu_init
  | platform_init (arg : Nat)
  | platform_cmdline
  | cmdline_parse (raw : Nat)
  | log (level : log_level_t) (fmt : String) (args : List log_arg)
  | mem_init
  | time_init (arg : Nat)
  | block_init (arg : Nat)
  | net_init (arg : Nat)
  | mem_lock_heap
  | solo5_app_main
  | solo5_exit (status : Int)
  deriving DecidableEq, Repr

/-- One entry of the call trace: the call made and the contents of the static
record `si` at the moment the call is made. -/
structure Event where
  call : Call
  si : solo5_start_info
  deriving DecidableEq, Repr

/-- The collaborators of `_start`, none of which is defined in `start.c`.
Each acts on a world state `σ`; the outcome `none` stands for a callee that
does not return (a fatal abort).  `mem_lock_heap` receives the current values
of its two pointees and returns their values on return.  `fnstcw` and
`fninit` are the two x87 instructions issued by inline assembly;
`SOLO5_VERSION` is the string constant of `solo5_version.h`. -/
structure Collaborators (σ : Type) where
  crt_init_ssp : σ → Option (Unit × σ)
  crt_init_tls : σ → Option (Unit × σ)
  console_init : σ → Option (Unit × σ)
  cpu_init : σ → Option (Unit × σ)
  platform_init : Nat → σ → Option (Unit × σ)
  platform_cmdline : σ → Option (Nat × σ)
  cmdline_parse : Nat → σ → Option (Nat × σ)
  log : log_level_t → String → List log_arg → σ → Option (Unit × σ)
  fnstcw : σ → Nat
  fninit : σ → σ
  mem_init : σ → Option (Unit × σ)
  time_init : Nat → σ → Option (Unit × σ)
  block_init : Nat → σ → Option (Unit × σ)
  net_init : Nat → σ → Option (Unit × σ)
  mem_lock_heap : Nat → Nat → σ → Option ((Nat × Nat) × σ)
  solo5_app_main : solo5_start_info → σ → Option (Int × σ)
  solo5_exit : Int → σ → Option (Unit × σ)
  SOLO5_VERSION : String

/-- The state of a run of `_start`: the calls made so far (oldest first), the
static record `si`, and the state of the world outside `_start`. -/
structure BootState (σ : Type) where
  trace : List Event
  si : solo5_start_info
  world : σ

/-- A sequence of statements of `_start`: from a state to the state reached
and the value produced, `none` when control never comes back. -/
def Boot (σ α : Type) : Type := BootState σ → BootState σ × Option α

/-- Sequencing of statements. -/
def Boot.bind {σ α β : Type} (x : Boot σ α) (f : α → Boot σ β) : Boot σ β :=
  fun s =>
    match x s with
    | (s1, none) => (s1, none)
    | (s1, some a) => f a s1

instance {σ : Type} : Monad (Boot σ) where
  pure a := fun s => (s, some a)
  bind := Boot.bind

/-- A call statement: the call is recorded, then the callee runs on the world. -/
def invoke {σ α : Type} (c : Call) (f : σ → Option (α × σ)) : Boot σ α :=
  fun s =>
    let s1 : BootState σ := ⟨s.trace ++ [⟨c, s.si⟩], s.si, s.world⟩
    match f s.world with
    | none => (s1, none)
    | some (a, w) => (⟨s1.trace, s1.si, w⟩, some a)

/-- An instruction of inline assembly acting on the world. -/
def asm_volatile {σ α : Type} (f : σ → α × σ) : Boot σ α :=
  fun s => (⟨s.trace, s.si, (f s.world).2⟩, some (f s.world).1)

/-- Read the static record `si`. -/
def get_si {σ : Type} : Boot σ solo5_start_info :=
  fun s => (s, some s.si)

/-- Assign the static record `si`. -/
def set_si {σ : Type} (v : solo5_start_info) : Boot σ Unit :=
  fun s => (⟨s.trace, v, s.world⟩, some ())

/-- The body of `void _start(void *arg)`, statement by statement. -/
def _start_body {σ : Type} (c : Collaborators σ) (arg : Nat) : Boot σ Unit := do
  invoke .crt_init_ssp c.crt_init_ssp
  invoke .crt_init_tls c.crt_init_tls
  invoke .console_init c.console_init
  invoke .cpu_init c.cpu_init
  invoke (.platform_init arg) (c.platform_init arg)
  let raw ← invoke .platform_cmdline c.platform_cmdline
  let parsed ← invoke (.cmdline_parse raw) (c.cmdline_parse raw)
  let si0 ← get_si
  set_si ⟨parsed, si0.heap_start, si0.heap_size⟩
  invoke (.log .INFO "            |      ___|\n" [])
    (c.log .INFO "            |      ___|\n" [])
  invoke (.log .INFO "  __|  _ \\  |  _ \\ __ \\\n" [])
    (c.log .INFO "  __|  _ \\  |  _ \\ __ \\\n" [])
  invoke (.log .INFO "\\__ \\ (   | | (   |  ) |\n" [])
    (c.log .INFO "\\__ \\ (   | | (   |  ) |\n" [])
  invoke (.log .INFO "____/\\___/ _|\\___/____/\n" [])
    (c.log .INFO "____/\\___/ _|\\___/____/\n" [])
  invoke (.log .INFO "Solo5: Bindings version %s\n" [.str c.SOLO5_VERSION])
    (c.log .INFO "Solo5: Bindings version %s\n" [.str c.SOLO5_VERSION])
  let control_word ← asm_volatile (fun w => (c.fnstcw w, w))
  invoke (.log .INFO "FPU Control Word before fninit: 0x%04x\n" [.uint control_word])
    (c.log .INFO "FPU Control Word before fninit: 0x%04x\n" [.uint control_word])
  asm_volatile (fun w => ((), c.fninit w))
  let control_word ← asm_volatile (fun w => (c.fnstcw w, w))
  invoke (.log .INFO "FPU Control Word after fninit: 0x%04x\n" [.uint control_word])
    (c.log .INFO "FPU Control Word after fninit: 0x%04x\n" [.uint control_word])
  invoke .mem_init c.mem_init
  invoke (.time_init arg) (c.time_init arg)
  invoke (.block_init arg) (c.block_init arg)
  invoke (.net_init arg) (c.net_init arg)
  let si1 ← get_si
  let heap ← invoke .mem_lock_heap (c.mem_lock_heap si1.heap_start si1.heap_size)
  set_si ⟨si1.cmdline, heap.1, heap.2⟩
  let si2 ← get_si
  let status ← invoke .solo5_app_main (c.solo5_app_main si2)
  invoke (.solo5_exit status) (c.solo5_exit status)

/-- Function `void _start(void *arg)`, entered once with an empty call trace and the
zero-initialised `static struct solo5_start_info si`. -/
def _start {σ : Type} (c : Collaborators σ) (arg : Nat) (w : σ) : BootState σ × Option Unit :=
  _start_body c arg ⟨[], ⟨0, 0, 0⟩, w⟩

/-- The collaborators named by the boot-order property: every call of `_start`
except the diagnostic `log` lines and the final `solo5_exit`. -/
def Call.is_bringup : Call → Bool
  | .log _ _ _ => false
  | .solo5_exit _ => false
  | _ => true

/-- A concrete world for running `_start`: the world state counts the calls
that returned, and every value a collaborator produces depends on the world it
is called in.  `platform_cmdline` yields 70 plus the world, `cmdline_parse` its
argument plus one, `fnstcw` reads the world, `fninit` adds 100 to it,
`mem_lock_heap` adds the world to `0x1000` and `0x2000`, `solo5_app_main`
returns the `heap_start` it is handed, and `solo5_exit` does not return. -/
def counting_world : Collaborators Nat where
  crt_init_ssp := fun w => some ((), w + 1)
  crt_init_tls := fun w => some ((), w + 1)
  console_init := fun w => some ((), w + 1)
  cpu_init := fun w => some ((), w + 1)
  platform_init := fun _ w => some ((), w + 1)
  platform_cmdline := fun w => some (70 + w, w + 1)
  cmdline_parse := fun r w => some (r + 1, w + 1)
  log := fun _ _ _ w => some ((), w + 1)
  fnstcw := fun w => w
  fninit := fun w => w + 100
  mem_init := fun w => some ((), w + 1)
  time_init := fun _ w => some ((), w + 1)
  block_init := fun _ w => some ((), w + 1)
  net_init := fun _ w => some ((), w + 1)
  mem_lock_heap := fun a b w => some ((0x1000 + w + a, 0x2000 + w + b), w + 1)
  solo5_app_main := fun si w => some ((si.heap_start : Int), w + 1)
  solo5_exit := fun _ _ => none
  SOLO5_VERSION := "v0.9.0"

/-! ## Basic facts about the memory operations -/

theorem write_byte_other (m : Mem) (a b x : Nat) (h : x ≠ a) :
    write_byte m a b x = m x := by
  simp [write_byte, h]

/-- The eight byte stores of `store_uintptr`, written out. -/
theorem store_uintptr_unfold (be : Bool) (m : Mem) (p v : Nat) :
    store_uintptr be m p v =
      write_byte (write_byte (write_byte (write_byte (write_byte (write_byte (write_byte
        (write_byte m ((p + 0) % UINTPTR_MOD) (uintptr_byte be v 0))
          ((p + 1) % UINTPTR_MOD) (uintptr_byte be v 1))
          ((p + 2) % UINTPTR_MOD) (uintptr_byte be v 2))
          ((p + 3) % UINTPTR_MOD) (uintptr_byte be v 3))
          ((p + 4) % UINTPTR_MOD) (uintptr_byte be v 4))
          ((p + 5) % UINTPTR_MOD) (uintptr_byte be v 5))
          ((p + 6) % UINTPTR_MOD) (uintptr_byte be v 6))
          ((p + 7) % UINTPTR_MOD) (uintptr_byte be v 7) := by
  rfl

/-- A byte outside the eight addressed by `store_uintptr` keeps its value. -/
theorem store_uintptr_frame (be : Bool) (m : Mem) (p v a : Nat)
    (h : ∀ i, i < 8 → a ≠ (p + i) % UINTPTR_MOD) :
    store_uintptr be m p v a = m a := by
  rw [store_uintptr_unfold]
  rw [write_byte_other _ _ _ _ (h 7 (by omega)), write_byte_other _ _ _ _ (h 6 (by omega)),
    write_byte_other _ _ _ _ (h 5 (by omega)), write_byte_other _ _ _ _ (h 4 (by omega)),
    write_byte_other _ _ _ _ (h 3 (by omega)), write_byte_other _ _ _ _ (h 2 (by omega)),
    write_byte_other _ _ _ _ (h 1 (by omega)), write_byte_other _ _ _ _ (h 0 (by omega))]

/-- The byte at offset `i` of the slot holds byte `i` of the stored value. -/
theorem store_uintptr_at (be : Bool) (m : Mem) (p v i : Nat) (hi : i < 8) :
    store_uintptr be m p v ((p + i) % UINTPTR_MOD) = uintptr_byte be v i := by
  rw [store_uintptr_unfold]
  simp only [write_byte, UINTPTR_MOD]
  interval_cases i <;> (repeat (first | rw [if_pos rfl] | rw [if_neg (by omega)]))

/-- Storing the same value again changes no byte: a memory that agrees at `a`
with the memory after the store is mapped to that same byte by the store. -/
theorem store_uintptr_absorb (be : Bool) (m m1 : Mem) (p v a : Nat)
    (h : m1 a = store_uintptr be m p v a) :
    store_uintptr be m1 p v a = store_uintptr be m p v a := by
  rw [store_uintptr_unfold] at h ⊢
  rw [store_uintptr_unfold]
  simp only [write_byte] at h ⊢
  split_ifs at h ⊢ <;> first | rfl | exact h

/-- Loads depend only on the eight bytes of the slot. -/
theorem load_uintptr_congr (be : Bool) (m m1 : Mem) (p : Nat)
    (h : ∀ i, i < 8 → m1 ((p + i) % UINTPTR_MOD) = m ((p + i) % UINTPTR_MOD)) :
    load_uintptr be m1 p = load_uintptr be m p := by
  simp only [load_uintptr, List.range, List.range.loop, List.map]
  rw [h 0 (by omega), h 1 (by omega), h 2 (by omega), h 3 (by omega), h 4 (by omega),
    h 5 (by omega), h 6 (by omega), h 7 (by omega)]

/-- Reading back a stored `uintptr_t` yields the stored value. -/
theorem load_store_uintptr (be : Bool) (m : Mem) (p v : Nat) (hv : v < UINTPTR_MOD) :
    load_uintptr be (store_uintptr be m p v) p = v := by
  have e : ∀ i, i < 8 → store_uintptr be m p v ((p + i) % UINTPTR_MOD) = uintptr_byte be v i :=
    fun i hi => store_uintptr_at be m p v i hi
  simp only [load_uintptr, List.range, List.range.loop, List.map, List.sum_cons, List.sum_nil]
  rw [e 0 (by omega), e 1 (by omega), e 2 (by omega), e 3 (by omega), e 4 (by omega),
    e 5 (by omega), e 6 (by omega), e 7 (by omega)]
  simp only [UINTPTR_MOD] at hv
  cases be <;> simp [uintptr_byte] <;> omega

/-- A byte that `memcpy` does not address as destination keeps its value. -/
theorem memcpy_frame (m : Mem) (dest src : Nat) (n a : Nat)
    (h : ∀ i, i < n → a ≠ (dest + i) % UINTPTR_MOD) :
    memcpy m dest src n a = m a := by
  induction n with
  | zero => rfl
  | succ k ih =>
    have hk : a ≠ (dest + k) % UINTPTR_MOD := h k (Nat.lt_succ_self k)
    have ih2 := ih (fun i hi => h i (Nat.lt_succ_of_lt hi))
    simp only [memcpy]
    rw [write_byte_other _ _ _ _ hk, ih2]

/-- When no source byte is a destination byte and the destination does not
wrap, destination byte `i` receives source byte `i`. -/
theorem memcpy_copied (m : Mem) (dest src : Nat) (n : Nat)
    (hwrap : dest + n ≤ UINTPTR_MOD)
    (hsrc : ∀ i, i < n → ∀ j, j < n → (src + i) % UINTPTR_MOD ≠ (dest + j) % UINTPTR_MOD)
    (i : Nat) (hi : i < n) :
    memcpy m dest src n (dest + i) = m ((src + i) % UINTPTR_MOD) := by
  induction n with
  | zero => omega
  | succ k ih =>
    simp only [memcpy]
    by_cases hik : i = k
    · subst hik
      have e : (dest + i) % UINTPTR_MOD = dest + i := Nat.mod_eq_of_lt (by omega)
      rw [e]
      simp only [write_byte, if_true]
      exact memcpy_frame m dest src i _ (fun j hj => hsrc i (by omega) j (by omega))
    · have hlt : i < k := by omega
      have hne : dest + i ≠ (dest + k) % UINTPTR_MOD := by
        rw [Nat.mod_eq_of_lt (by omega)]; omega
      rw [write_byte_other _ _ _ _ hne]
      exact ih (by omega) (fun a ha b hb => hsrc a (by omega) b (by omega)) hlt

/-- When no source byte is a destination byte, the destination bytes after
`memcpy` depend only on the source bytes before it. -/
theorem memcpy_dest_congr (m m1 : Mem) (dest src : Nat) (n : Nat)
    (hsrc : ∀ i, i < n → ∀ j, j < n → (src + i) % UINTPTR_MOD ≠ (dest + j) % UINTPTR_MOD)
    (hm : ∀ i, i < n → m1 ((src + i) % UINTPTR_MOD) = m ((src + i) % UINTPTR_MOD))
    (a : Nat) (ha : ∃ j, j < n ∧ a = (dest + j) % UINTPTR_MOD) :
    memcpy m1 dest src n a = memcpy m dest src n a := by
  induction n with
  | zero => obtain ⟨j, hj, _⟩ := ha; omega
  | succ k ih =>
    simp only [memcpy]
    by_cases hak : a = (dest + k) % UINTPTR_MOD
    · subst hak
      simp only [write_byte, if_true]
      rw [memcpy_frame m1 dest src k _ (fun j hj => hsrc k (by omega) j (by omega)),
        memcpy_frame m dest src k _ (fun j hj => hsrc k (by omega) j (by omega))]
      exact hm k (by omega)
    · rw [write_byte_other _ _ _ _ hak, write_byte_other _ _ _ _ hak]
      obtain ⟨j, hj, hja⟩ := ha
      have hjk : j < k := by
        rcases Nat.lt_or_ge j k with h | h
        · exact h
        · have : j = k := by omega
          subst this; exact absurd hja hak
      exact ih (fun a ha b hb => hsrc a (by omega) b (by omega))
        (fun i hi => hm i (by omega)) ⟨j, hjk, hja⟩

/-- The memory after a successful `solo5_tls_init`. -/
theorem solo5_tls_init_mem (v : Variant) (be : Bool) (l : Link) (tls : Nat) (m : Mem)
    (h0 : tls ≠ 0) :
    (solo5_tls_init v be l tls m).2 =
      memcpy (store_uintptr be m (solo5_tls_tp_offset v l tls) (solo5_tls_tp_offset v l tls))
        (_solo5_tls_data_offset v tls) l._stdata l._ltdata := by
  simp [solo5_tls_init, h0, solo5_tls_tp_offset, TDATA, LTDATA]

/-- The result code of `solo5_tls_init` on a non-null block. -/
theorem solo5_tls_init_ok (v : Variant) (be : Bool) (l : Link) (tls : Nat) (m : Mem)
    (h0 : tls ≠ 0) : (solo5_tls_init v be l tls m).1 = SOLO5_R_OK := by
  simp [solo5_tls_init, h0]

/-! ## Properties of `tls.c` -/

/-- C1: `solo5_tls_size()` returns `tdata_length + tbss_length + sizeof(TCB)`,
as a `size_t`, for every pair of link-time lengths: the sum reduced modulo
`2 ^ 64`, which is the sum itself whenever the sum is representable.
`sizeof(TCB)` is 8 for Variant II and 16 for Variant I, the result depends on
nothing but the two lengths and the variant, and lengths 16 and 8 give 32 for
Variant II. -/
theorem solo5_tls_size_spec (v : Variant) (l : Link) :
    solo5_tls_size v l = (l._ltdata + l._ltbss + sizeof_tcb v) % 2 ^ 64 ∧
    (l._ltdata + l._ltbss + sizeof_tcb v < 2 ^ 64 →
      solo5_tls_size v l = l._ltdata + l._ltbss + sizeof_tcb v) ∧
    sizeof_tcb Variant.II = 8 ∧ sizeof_tcb Variant.I = 16 ∧
    (∀ l2 : Link, l2._ltdata = l._ltdata → l2._ltbss = l._ltbss →
      solo5_tls_size v l2 = solo5_tls_size v l) ∧
    (∀ stdata : Nat, solo5_tls_size Variant.II ⟨stdata, 16, 8⟩ = 32) := by
  refine ⟨?_, ?_, rfl, rfl, ?_, ?_⟩
  · simp only [solo5_tls_size, LTDATA, LTBSS, UINTPTR_MOD]; omega
  · intro h; simp only [solo5_tls_size, LTDATA, LTBSS, UINTPTR_MOD]; omega
  · intro l2 h1 h2; simp only [solo5_tls_size, LTDATA, LTBSS, h1, h2]
  · intro stdata; rfl

/-- C1, at `tdata_length = 16`, `tbss_length = 8`, Variant II. -/
theorem solo5_tls_size_spec_witness :
    (16 + 8 + sizeof_tcb Variant.II < 2 ^ 64) ∧
    solo5_tls_size Variant.II ⟨8192, 16, 8⟩ = 16 + 8 + sizeof_tcb Variant.II ∧
    solo5_tls_size Variant.II ⟨8192, 16, 8⟩ = 32 :=
  ⟨by decide, (solo5_tls_size_spec Variant.II ⟨8192, 16, 8⟩).2.1 (by decide), by decide⟩

/-- C2: in the Variant II build `solo5_tls_tp_offset(base)` is
`base + tdata_length + tbss_length` in `uintptr_t` arithmetic, for every base;
when that sum does not wrap, the slot starts right after the `tdata_length`
and `tbss_length` bytes that follow the data offset.  Lengths 16 and 8 and base
`0x1000` give `0x1018`. -/
theorem solo5_tls_tp_offset_variant_II (l : Link) (base : Nat) :
    solo5_tls_tp_offset Variant.II l base = (base + l._ltdata + l._ltbss) % 2 ^ 64 ∧
    (base + l._ltdata + l._ltbss < 2 ^ 64 →
      solo5_tls_tp_offset Variant.II l base =
        _solo5_tls_data_offset Variant.II base + l._ltdata + l._ltbss) ∧
    (∀ stdata : Nat, solo5_tls_tp_offset Variant.II ⟨stdata, 16, 8⟩ 0x1000 = 0x1018) := by
  refine ⟨?_, ?_, ?_⟩
  · simp only [solo5_tls_tp_offset, _solo5_tls_tp_offset, LTDATA, LTBSS, UINTPTR_MOD]; omega
  · intro h
    simp only [solo5_tls_tp_offset, _solo5_tls_tp_offset, _solo5_tls_data_offset, LTDATA, LTBSS,
      UINTPTR_MOD]
    omega
  · intro stdata; rfl

/-- C2, at `tdata_length = 16`, `tbss_length = 8`, `base = 0x1000`. -/
theorem solo5_tls_tp_offset_variant_II_witness :
    (0x1000 + 16 + 8 < 2 ^ 64) ∧
    solo5_tls_tp_offset Variant.II ⟨8192, 16, 8⟩ 0x1000 =
      _solo5_tls_data_offset Variant.II 0x1000 + 16 + 8 ∧
    solo5_tls_tp_offset Variant.II ⟨8192, 16, 8⟩ 0x1000 = 0x1018 :=
  ⟨by decide, (solo5_tls_tp_offset_variant_II ⟨8192, 16, 8⟩ 0x1000).2.1 (by decide), by decide⟩

/-- C3: in the Variant I build `solo5_tls_tp_offset(base)` is `base` for every
base, and `solo5_tls_init(base)` copies the `tdata` template to
`base + sizeof(TCB)`, that is `base + 16` in `uintptr_t` arithmetic: the TCB
leads the block and the data follows it. -/
theorem solo5_tls_variant_I_layout (be : Bool) (l : Link) (base : Nat) (m : Mem) :
    solo5_tls_tp_offset Variant.I l base = base ∧
    _solo5_tls_data_offset Variant.I base = (base + sizeof_tcb Variant.I) % 2 ^ 64 ∧
    sizeof_tcb Variant.I = 16 ∧
    (base + 16 < 2 ^ 64 → _solo5_tls_data_offset Variant.I base = base + 16) ∧
    (base ≠ 0 →
      solo5_tls_init Variant.I be l base m =
        (SOLO5_R_OK,
          memcpy (store_uintptr be m base base) ((base + 16) % 2 ^ 64) l._stdata l._ltdata)) := by
  refine ⟨rfl, rfl, rfl, ?_, ?_⟩
  · intro h
    simp only [_solo5_tls_data_offset, sizeof_tcb, UINTPTR_MOD]
    omega
  · intro h0
    simp [solo5_tls_init, h0, _solo5_tls_tp_offset, _solo5_tls_data_offset, sizeof_tcb, TDATA,
      LTDATA, UINTPTR_MOD]

/-- C3, at `base = 0x1000`. -/
theorem solo5_tls_variant_I_layout_witness :
    (0x1000 + 16 < 2 ^ 64) ∧ _solo5_tls_data_offset Variant.I 0x1000 = 0x1000 + 16 :=
  ⟨by decide,
    (solo5_tls_variant_I_layout false ⟨8192, 16, 8⟩ 0x1000 (fun _ => 0)).2.2.2.1 (by decide)⟩

/-- C4: in every variant `solo5_tls_init(block)` returns `SOLO5_R_EINVAL`
exactly when `block` is null and `SOLO5_R_OK` for every other block; when it
returns `SOLO5_R_EINVAL` the memory is the memory before the call, so the
failing call can be repeated without effect. -/
theorem solo5_tls_init_null_iff (v : Variant) (be : Bool) (l : Link) (tls : Nat) (m : Mem) :
    ((solo5_tls_init v be l tls m).1 = SOLO5_R_EINVAL ↔ tls = 0) ∧
    (tls ≠ 0 → (solo5_tls_init v be l tls m).1 = SOLO5_R_OK) ∧
    ((solo5_tls_init v be l tls m).1 = SOLO5_R_EINVAL → (solo5_tls_init v be l tls m).2 = m) ∧
    solo5_tls_init v be l 0 (solo5_tls_init v be l 0 m).2 = solo5_tls_init v be l 0 m ∧
    solo5_tls_init v be l 0 m = (SOLO5_R_EINVAL, m) := by
  have hiff : (solo5_tls_init v be l tls m).1 = SOLO5_R_EINVAL ↔ tls = 0 := by
    by_cases h0 : tls = 0
    · simp [solo5_tls_init, h0]
    · simp [solo5_tls_init, h0]
  refine ⟨hiff, fun h0 => solo5_tls_init_ok v be l tls m h0, ?_, rfl, rfl⟩
  intro h
  have h0 : tls = 0 := hiff.1 h
  simp [solo5_tls_init, h0]

/-- C4, at the null block and at block `0x1000`. -/
theorem solo5_tls_init_null_iff_witness :
    (solo5_tls_init Variant.II false ⟨8192, 16, 8⟩ 0 (fun _ => 0)).1 = SOLO5_R_EINVAL ∧
    (solo5_tls_init Variant.II false ⟨8192, 16, 8⟩ 0 (fun _ => 0)).2 = (fun _ => 0) ∧
    (solo5_tls_init Variant.I false ⟨8192, 16, 8⟩ 0x1000 (fun _ => 0)).1 = SOLO5_R_OK :=
  ⟨by decide,
    (solo5_tls_init_null_iff Variant.II false ⟨8192, 16, 8⟩ 0 (fun _ => 0)).2.2.1 (by decide),
    (solo5_tls_init_null_iff Variant.I false ⟨8192, 16, 8⟩ 0x1000 (fun _ => 0)).2.1 (by decide)⟩

/-- The layout of a block of `solo5_tls_size()` bytes at `tls`: the slot lies
inside the block, and unless both lengths are zero the data and `tbss` bytes
lie inside the block, do not wrap and do not meet the slot. -/
theorem tls_layout (v : Variant) (l : Link) (tls : Nat)
    (hfit : l._ltdata + l._ltbss + sizeof_tcb v < 2 ^ 64)
    (hreg : tls + solo5_tls_size v l ≤ 2 ^ 64) :
    solo5_tls_size v l = l._ltdata + l._ltbss + sizeof_tcb v ∧
    tls ≤ solo5_tls_tp_offset v l tls ∧
    solo5_tls_tp_offset v l tls + 8 ≤ tls + solo5_tls_size v l ∧
    _solo5_tls_data_offset v tls < 2 ^ 64 ∧
    (l._ltdata + l._ltbss = 0 ∨
      (tls ≤ _solo5_tls_data_offset v tls ∧
        _solo5_tls_data_offset v tls + l._ltdata + l._ltbss ≤ tls + solo5_tls_size v l ∧
        (solo5_tls_tp_offset v l tls + 8 ≤ _solo5_tls_data_offset v tls ∨
          _solo5_tls_data_offset v tls + l._ltdata + l._ltbss ≤ solo5_tls_tp_offset v l tls))) := by
  cases v <;>
    simp only [solo5_tls_size, solo5_tls_tp_offset, _solo5_tls_tp_offset, _solo5_tls_data_offset,
      sizeof_tcb, LTDATA, LTBSS, UINTPTR_MOD] at * <;>
    omega

/-- C5: in every variant, for a non-null block that is the base of a region of
`solo5_tls_size()` bytes (the size being the representable sum of the two
lengths and `sizeof(TCB)`, and `block + solo5_tls_size()` not wrapping) and
every initial memory, `solo5_tls_init(block)` returns `SOLO5_R_OK` and the
`uintptr_t` then stored at `solo5_tls_tp_offset(block)` is
`solo5_tls_tp_offset(block)` itself; the copy of the template leaves the eight
bytes of the slot as the store wrote them. -/
theorem solo5_tls_init_tp_self (v : Variant) (be : Bool) (l : Link) (tls : Nat) (m : Mem)
    (h0 : tls ≠ 0)
    (hfit : l._ltdata + l._ltbss + sizeof_tcb v < 2 ^ 64)
    (hreg : tls + solo5_tls_size v l ≤ 2 ^ 64) :
    (solo5_tls_init v be l tls m).1 = SOLO5_R_OK ∧
    load_uintptr be (solo5_tls_init v be l tls m).2 (solo5_tls_tp_offset v l tls) =
      solo5_tls_tp_offset v l tls ∧
    (∀ i, i < 8 →
      (solo5_tls_init v be l tls m).2 (solo5_tls_tp_offset v l tls + i) =
        store_uintptr be m (solo5_tls_tp_offset v l tls) (solo5_tls_tp_offset v l tls)
          (solo5_tls_tp_offset v l tls + i)) := by
  obtain ⟨hsz, h1, h2, h3, h4⟩ := tls_layout v l tls hfit hreg
  have hslot : ∀ i, i < 8 →
      (solo5_tls_init v be l tls m).2 ((solo5_tls_tp_offset v l tls + i) % UINTPTR_MOD) =
        store_uintptr be m (solo5_tls_tp_offset v l tls) (solo5_tls_tp_offset v l tls)
          ((solo5_tls_tp_offset v l tls + i) % UINTPTR_MOD) := by
    intro i hi
    rw [solo5_tls_init_mem v be l tls m h0]
    apply memcpy_frame
    intro j hj
    simp only [UINTPTR_MOD]
    omega
  refine ⟨solo5_tls_init_ok v be l tls m h0, ?_, ?_⟩
  · rw [load_uintptr_congr be _ _ _ hslot]
    apply load_store_uintptr
    simp only [UINTPTR_MOD]
    omega
  · intro i hi
    have e : (solo5_tls_tp_offset v l tls + i) % UINTPTR_MOD = solo5_tls_tp_offset v l tls + i :=
      Nat.mod_eq_of_lt (by simp only [UINTPTR_MOD]; omega)
    have := hslot i hi
    rw [e] at this
    exact this

/-- C5, at Variant II, lengths 16 and 8, block `0x1000`, template at `0x2000`. -/
theorem solo5_tls_init_tp_self_witness :
    load_uintptr false
        (solo5_tls_init Variant.II false ⟨0x2000, 16, 8⟩ 0x1000 (fun a => a % 256)).2
        (solo5_tls_tp_offset Variant.II ⟨0x2000, 16, 8⟩ 0x1000) =
      solo5_tls_tp_offset Variant.II ⟨0x2000, 16, 8⟩ 0x1000 :=
  (solo5_tls_init_tp_self Variant.II false ⟨0x2000, 16, 8⟩ 0x1000 (fun a => a % 256)
    (by decide) (by decide) (by decide)).2.1

/-- C6: in every variant, for a non-null block that is the base of a region of
`solo5_tls_size()` bytes no byte of which is a byte of the `tdata` template,
after `solo5_tls_init(block)` returns `SOLO5_R_OK` the `tdata_length` bytes
starting at `block` (Variant II), respectively at `block + 16`, which is
`block + sizeof(TCB)` (Variant I), are byte for byte and in the same order the
`tdata_length` bytes of the template starting at `_stdata`; that address is
the data offset, and the template itself is not changed by the call. -/
theorem solo5_tls_init_copies_tdata (v : Variant) (be : Bool) (l : Link) (tls : Nat) (m : Mem)
    (h0 : tls ≠ 0)
    (hfit : l._ltdata + l._ltbss + sizeof_tcb v < 2 ^ 64)
    (hreg : tls + solo5_tls_size v l ≤ 2 ^ 64)
    (hdisj : ∀ i, i < l._ltdata → ∀ j, j < solo5_tls_size v l →
      (l._stdata + i) % 2 ^ 64 ≠ tls + j) :
    (solo5_tls_init v be l tls m).1 = SOLO5_R_OK ∧
    sizeof_tcb Variant.I = 16 ∧
    ∀ i, i < l._ltdata →
      (solo5_tls_init v be l tls m).2 ((if v = Variant.II then tls else tls + 16) + i) =
        m ((l._stdata + i) % 2 ^ 64) ∧
      _solo5_tls_data_offset v tls = (if v = Variant.II then tls else tls + 16) ∧
      (solo5_tls_init v be l tls m).2 (_solo5_tls_data_offset v tls + i) =
        m ((l._stdata + i) % 2 ^ 64) ∧
      (solo5_tls_init v be l tls m).2 ((l._stdata + i) % 2 ^ 64) =
        m ((l._stdata + i) % 2 ^ 64) := by
  obtain ⟨hsz, h1, h2, h3, h4⟩ := tls_layout v l tls hfit hreg
  refine ⟨solo5_tls_init_ok v be l tls m h0, rfl, ?_⟩
  intro i hi
  have hoff : _solo5_tls_data_offset v tls = (if v = Variant.II then tls else tls + 16) := by
    cases v
    · rw [if_neg (by decide)]
      simp only [_solo5_tls_data_offset, sizeof_tcb, solo5_tls_size, LTDATA, LTBSS,
        UINTPTR_MOD] at hreg hsz ⊢
      omega
    · rw [if_pos rfl]
      rfl
  have hslot : ∀ k, k < 8 →
      (l._stdata + i) % 2 ^ 64 ≠ (solo5_tls_tp_offset v l tls + k) % UINTPTR_MOD := by
    intro k hk
    have hd := hdisj i hi (solo5_tls_tp_offset v l tls + k - tls) (by omega)
    simp only [UINTPTR_MOD]
    omega
  have hdata : ∀ a, a < l._ltdata → ∀ b, b < l._ltdata →
      (l._stdata + a) % UINTPTR_MOD ≠ (_solo5_tls_data_offset v tls + b) % UINTPTR_MOD := by
    intro a ha b hb
    have hd := hdisj a ha (_solo5_tls_data_offset v tls + b - tls) (by omega)
    simp only [UINTPTR_MOD]
    omega
  have hcopy : (solo5_tls_init v be l tls m).2 (_solo5_tls_data_offset v tls + i) =
      m ((l._stdata + i) % 2 ^ 64) := by
    rw [solo5_tls_init_mem v be l tls m h0]
    rw [memcpy_copied _ _ _ _ (by simp only [UINTPTR_MOD]; omega) hdata i hi]
    exact store_uintptr_frame _ _ _ _ _ hslot
  refine ⟨?_, hoff, hcopy, ?_⟩
  · rw [← hoff]
    exact hcopy
  · rw [solo5_tls_init_mem v be l tls m h0]
    rw [memcpy_frame _ _ _ _ _ (fun b hb => hdata i hi b hb)]
    exact store_uintptr_frame _ _ _ _ _ hslot

/-- C6, with lengths 2 and 8, block `0x1000`, and the template at `0x2000`
holding the bytes 0 and 1: for Variant I byte 1 of the copy is at
`0x1000 + 16 + 1`, for Variant II at `0x1000 + 1`, and it is 1. -/
theorem solo5_tls_init_copies_tdata_witness :
    (solo5_tls_init Variant.I false ⟨0x2000, 2, 8⟩ 0x1000 (fun a => a % 256)).1 = SOLO5_R_OK ∧
    (solo5_tls_init Variant.I false ⟨0x2000, 2, 8⟩ 0x1000 (fun a => a % 256)).2 0x1011 = 1 ∧
    (solo5_tls_init Variant.II false ⟨0x2000, 2, 8⟩ 0x1000 (fun a => a % 256)).2 0x1001 = 1 :=
  ⟨(solo5_tls_init_copies_tdata Variant.I false ⟨0x2000, 2, 8⟩ 0x1000 (fun a => a % 256)
      (by decide) (by decide) (by decide) (by decide)).1,
    ((solo5_tls_init_copies_tdata Variant.I false ⟨0x2000, 2, 8⟩ 0x1000 (fun a => a % 256)
      (by decide) (by decide) (by decide) (by decide)).2.2 1 (by decide)).1,
    ((solo5_tls_init_copies_tdata Variant.II false ⟨0x2000, 2, 8⟩ 0x1000 (fun a => a % 256)
      (by decide) (by decide) (by decide) (by decide)).2.2 1 (by decide)).1⟩

/-- C7: in every variant, for a non-null block that is the base of a region of
`solo5_tls_size()` bytes, `solo5_tls_init(block)` leaves unchanged every byte
outside `[block, block + solo5_tls_size())` and every byte of the
`tbss_length` bytes that follow the copied `tdata_length` bytes; a byte it
changes lies in the eight-byte slot at `solo5_tls_tp_offset(block)` or among
the `tdata_length` bytes at the data offset, and both ranges lie inside the
block. -/
theorem solo5_tls_init_frame (v : Variant) (be : Bool) (l : Link) (tls : Nat) (m : Mem)
    (h0 : tls ≠ 0)
    (hfit : l._ltdata + l._ltbss + sizeof_tcb v < 2 ^ 64)
    (hreg : tls + solo5_tls_size v l ≤ 2 ^ 64) :
    (∀ a, a < tls ∨ tls + solo5_tls_size v l ≤ a →
      (solo5_tls_init v be l tls m).2 a = m a) ∧
    (∀ j, j < l._ltbss →
      (solo5_tls_init v be l tls m).2 (_solo5_tls_data_offset v tls + l._ltdata + j) =
        m (_solo5_tls_data_offset v tls + l._ltdata + j)) ∧
    (∀ a, (solo5_tls_init v be l tls m).2 a ≠ m a →
      (solo5_tls_tp_offset v l tls ≤ a ∧ a < solo5_tls_tp_offset v l tls + 8) ∨
      (_solo5_tls_data_offset v tls ≤ a ∧ a < _solo5_tls_data_offset v tls + l._ltdata)) ∧
    (tls ≤ solo5_tls_tp_offset v l tls ∧
      solo5_tls_tp_offset v l tls + 8 ≤ tls + solo5_tls_size v l) ∧
    (∀ i, i < l._ltdata →
      tls ≤ _solo5_tls_data_offset v tls + i ∧
      _solo5_tls_data_offset v tls + i < tls + solo5_tls_size v l) := by
  obtain ⟨hsz, h1, h2, h3, h4⟩ := tls_layout v l tls hfit hreg
  have hout : ∀ a,
      ¬ (solo5_tls_tp_offset v l tls ≤ a ∧ a < solo5_tls_tp_offset v l tls + 8) →
      ¬ (_solo5_tls_data_offset v tls ≤ a ∧ a < _solo5_tls_data_offset v tls + l._ltdata) →
      (solo5_tls_init v be l tls m).2 a = m a := by
    intro a ha hb
    rw [solo5_tls_init_mem v be l tls m h0]
    rw [memcpy_frame _ _ _ _ _ (by intro i hi; simp only [UINTPTR_MOD]; omega)]
    exact store_uintptr_frame _ _ _ _ _ (by intro i hi; simp only [UINTPTR_MOD]; omega)
  refine ⟨?_, ?_, ?_, ⟨h1, h2⟩, fun i hi => by omega⟩
  · intro a ha
    exact hout a (by omega) (by omega)
  · intro j hj
    exact hout _ (by omega) (by omega)
  · intro a ha
    by_contra hcon
    exact ha (hout a (fun h => hcon (Or.inl h)) (fun h => hcon (Or.inr h)))

/-- C7, at Variant II, lengths 2 and 8, block `0x1000`: the byte before the
block is unchanged. -/
theorem solo5_tls_init_frame_witness :
    (solo5_tls_init Variant.II true ⟨0x2000, 2, 8⟩ 0x1000 (fun a => a % 256)).2 0xfff =
      (fun a => a % 256) 0xfff :=
  (solo5_tls_init_frame Variant.II true ⟨0x2000, 2, 8⟩ 0x1000 (fun a => a % 256)
    (by decide) (by decide) (by decide)).1 0xfff (by decide)

/-- C8 fails as stated: with the template at `0x1001` (two bytes, holding 1 and
2) and the block at `0x1000`, the first call leaves 1 at `0x1000` and the
second call leaves 2 there. -/
theorem solo5_tls_init_twice_overlap :
    (solo5_tls_init Variant.II false ⟨0x1001, 2, 8⟩ 0x1000 (fun a => a % 256)).2 0x1000 = 1 ∧
    (solo5_tls_init Variant.II false ⟨0x1001, 2, 8⟩ 0x1000
      (solo5_tls_init Variant.II false ⟨0x1001, 2, 8⟩ 0x1000 (fun a => a % 256)).2).2 0x1000 = 2 ∧
    (solo5_tls_init Variant.II false ⟨0x1001, 2, 8⟩ 0x1000
      (solo5_tls_init Variant.II false ⟨0x1001, 2, 8⟩ 0x1000 (fun a => a % 256)).2).2 ≠
      (solo5_tls_init Variant.II false ⟨0x1001, 2, 8⟩ 0x1000 (fun a => a % 256)).2 := by
  refine ⟨by decide, by decide, ?_⟩
  intro h
  have h2 := congrFun h 0x1000
  revert h2
  decide

/-- C8, amended: in every variant and for every initial memory, when the block
is null, or no byte of the `tdata` template is one of the `tdata_length`
destination bytes at the data offset, calling `solo5_tls_init(block)` twice
yields the same result code and the same memory as calling it once. -/
theorem solo5_tls_init_idempotent (v : Variant) (be : Bool) (l : Link) (tls : Nat) (m : Mem)
    (h : tls = 0 ∨ ∀ i, i < l._ltdata → ∀ j, j < l._ltdata →
      (l._stdata + i) % 2 ^ 64 ≠ (_solo5_tls_data_offset v tls + j) % 2 ^ 64) :
    solo5_tls_init v be l tls (solo5_tls_init v be l tls m).2 = solo5_tls_init v be l tls m := by
  rcases h with h0 | hsrc
  · subst h0; rfl
  by_cases h0 : tls = 0
  · subst h0; rfl
  have hmem : (solo5_tls_init v be l tls (solo5_tls_init v be l tls m).2).2 =
      (solo5_tls_init v be l tls m).2 := by
    funext a
    rw [solo5_tls_init_mem v be l tls _ h0, solo5_tls_init_mem v be l tls m h0]
    by_cases ha : ∃ j, j < l._ltdata ∧ a = (_solo5_tls_data_offset v tls + j) % UINTPTR_MOD
    · apply memcpy_dest_congr _ _ _ _ _ hsrc _ a ha
      intro i hi
      apply store_uintptr_absorb
      exact memcpy_frame _ _ _ _ _ (fun j hj => hsrc i hi j hj)
    · have hna : ∀ j, j < l._ltdata → a ≠ (_solo5_tls_data_offset v tls + j) % UINTPTR_MOD :=
        fun j hj e => ha ⟨j, hj, e⟩
      rw [memcpy_frame _ _ _ _ _ hna, memcpy_frame _ _ _ _ _ hna]
      apply store_uintptr_absorb
      exact memcpy_frame _ _ _ _ _ hna
  exact Prod.ext (by rw [solo5_tls_init_ok v be l tls _ h0, solo5_tls_init_ok v be l tls m h0]) hmem

/-- C8 amended, at Variant II, lengths 2 and 8, block `0x1000`, template at `0x2000`. -/
theorem solo5_tls_init_idempotent_witness :
    solo5_tls_init Variant.II false ⟨0x2000, 2, 8⟩ 0x1000
        (solo5_tls_init Variant.II false ⟨0x2000, 2, 8⟩ 0x1000 (fun a => a % 256)).2 =
      solo5_tls_init Variant.II false ⟨0x2000, 2, 8⟩ 0x1000 (fun a => a % 256) :=
  solo5_tls_init_idempotent Variant.II false ⟨0x2000, 2, 8⟩ 0x1000 (fun a => a % 256)
    (Or.inr (by decide))

/-- C9: `solo5_set_tls_base(address)` applies the platform capability once, to
that address (the platform state after the call is the state after one
`platform_set_tls_base(address)`; a platform that logs its argument logs
exactly `address`), returns `SOLO5_R_OK` exactly when the platform returns 0
and `SOLO5_R_EINVAL` for every other return code. -/
theorem solo5_set_tls_base_spec {σ : Type} (platform_set_tls_base : Nat → σ → Int × σ)
    (base : Nat) (s : σ) :
    (solo5_set_tls_base platform_set_tls_base base s).2 = (platform_set_tls_base base s).2 ∧
    ((solo5_set_tls_base platform_set_tls_base base s).1 = SOLO5_R_OK ↔
      (platform_set_tls_base base s).1 = 0) ∧
    ((platform_set_tls_base base s).1 ≠ 0 →
      (solo5_set_tls_base platform_set_tls_base base s).1 = SOLO5_R_EINVAL) ∧
    (∀ (rc : Nat → Int) (calls : List Nat),
      (solo5_set_tls_base (fun a lg => (rc a, lg ++ [a])) base calls).2 = calls ++ [base]) := by
  refine ⟨rfl, ?_, ?_, fun _ _ => rfl⟩
  · by_cases h : (platform_set_tls_base base s).1 = 0
    · simp [solo5_set_tls_base, h]
    · simp [solo5_set_tls_base, h]
  · intro h
    simp [solo5_set_tls_base, h]

/-- C9, at a platform that rejects every address with `-1`. -/
theorem solo5_set_tls_base_spec_witness :
    (solo5_set_tls_base (fun (a : Nat) (lg : List Nat) => ((-1 : Int), lg ++ [a])) 0x1018 []).1 =
      SOLO5_R_EINVAL :=
  (solo5_set_tls_base_spec (fun (a : Nat) (lg : List Nat) => ((-1 : Int), lg ++ [a]))
    0x1018 []).2.2.1 (by decide)

/-! ## The boot sequencer -/

theorem invoke_bind_none {σ α β : Type} (c : Call) (f : σ → Option (α × σ)) (k : α → Boot σ β)
    (tr : List Event) (si : solo5_start_info) (w0 : σ) (h : f w0 = none) :
    (invoke c f >>= k) ⟨tr, si, w0⟩ = (⟨tr ++ [⟨c, si⟩], si, w0⟩, none) := by
  simp [bind, Boot.bind, invoke, h]

theorem invoke_bind_some {σ α β : Type} (c : Call) (f : σ → Option (α × σ)) (k : α → Boot σ β)
    (tr : List Event) (si : solo5_start_info) (w0 : σ) (a : α) (w : σ) (h : f w0 = some (a, w)) :
    (invoke c f >>= k) ⟨tr, si, w0⟩ = k a ⟨tr ++ [⟨c, si⟩], si, w⟩ := by
  simp [bind, Boot.bind, invoke, h]

theorem get_si_bind {σ β : Type} (k : solo5_start_info → Boot σ β) (s : BootState σ) :
    (get_si >>= k) s = k s.si s := rfl

theorem set_si_bind {σ β : Type} (v : solo5_start_info) (k : Unit → Boot σ β) (s : BootState σ) :
    (set_si v >>= k) s = k () ⟨s.trace, v, s.world⟩ := rfl

theorem asm_volatile_bind {σ α β : Type} (f : σ → α × σ) (k : α → Boot σ β) (s : BootState σ) :
    (asm_volatile f >>= k) s = k (f s.world).1 ⟨s.trace, s.si, (f s.world).2⟩ := rfl

/-- Every run of `_start` either stops before the guest entry point is called,
or every collaborator before it returned, each one called in the world left by
the one before it; the run is then determined by what the collaborators
returned. -/
theorem _start_run {σ : Type} (c : Collaborators σ) (arg : Nat) (w : σ) :
    Call.solo5_app_main ∉ (_start c arg w).1.trace.map Event.call ∨
    ∃ (raw cmd hs hz : Nat) (w1 w2 w3 w4 w5 w6 w7 w8 w9 w10 w11 w12 w13 w14 w15 w16 w17 w18 w19 wf : σ)
        (tail : List Event) (r : Option Unit),
      c.crt_init_ssp w = some ((), w1) ∧
      c.crt_init_tls w1 = some ((), w2) ∧
      c.console_init w2 = some ((), w3) ∧
      c.cpu_init w3 = some ((), w4) ∧
      c.platform_init arg w4 = some ((), w5) ∧
      c.platform_cmdline w5 = some (raw, w6) ∧
      c.cmdline_parse raw w6 = some (cmd, w7) ∧
      c.log log_level_t.INFO "            |      ___|\n" [] w7 = some ((), w8) ∧
      c.log log_level_t.INFO "  __|  _ \\  |  _ \\ __ \\\n" [] w8 = some ((), w9) ∧
      c.log log_level_t.INFO "\\__ \\ (   | | (   |  ) |\n" [] w9 = some ((), w10) ∧
      c.log log_level_t.INFO "____/\\___/ _|\\___/____/\n" [] w10 = some ((), w11) ∧
      c.log log_level_t.INFO "Solo5: Bindings version %s\n" [.str c.SOLO5_VERSION] w11 = some ((), w12) ∧
      c.log log_level_t.INFO "FPU Control Word before fninit: 0x%04x\n" [.uint (c.fnstcw w12)] w12 = some ((), w13) ∧
      c.log log_level_t.INFO "FPU Control Word after fninit: 0x%04x\n" [.uint (c.fnstcw (c.fninit w13))] (c.fninit w13) = some ((), w14) ∧
      c.mem_init w14 = some ((), w15) ∧
      c.time_init arg w15 = some ((), w16) ∧
      c.block_init arg w16 = some ((), w17) ∧
      c.net_init arg w17 = some ((), w18) ∧
      c.mem_lock_heap 0 0 w18 = some ((hs, hz), w19) ∧
      _start c arg w =
        (⟨[⟨.crt_init_ssp, ⟨0, 0, 0⟩⟩,
         ⟨.crt_init_tls, ⟨0, 0, 0⟩⟩,
         ⟨.console_init, ⟨0, 0, 0⟩⟩,
         ⟨.cpu_init, ⟨0, 0, 0⟩⟩,
         ⟨.platform_init arg, ⟨0, 0, 0⟩⟩,
         ⟨.platform_cmdline, ⟨0, 0, 0⟩⟩,
         ⟨.cmdline_parse raw, ⟨0, 0, 0⟩⟩,
         ⟨.log log_level_t.INFO "            |      ___|\n" [], ⟨cmd, 0, 0⟩⟩,
         ⟨.log log_level_t.INFO "  __|  _ \\  |  _ \\ __ \\\n" [], ⟨cmd, 0, 0⟩⟩,
         ⟨.log log_level_t.INFO "\\__ \\ (   | | (   |  ) |\n" [], ⟨cmd, 0, 0⟩⟩,
         ⟨.log log_level_t.INFO "____/\\___/ _|\\___/____/\n" [], ⟨cmd, 0, 0⟩⟩,
         ⟨.log log_level_t.INFO "Solo5: Bindings version %s\n" [.str c.SOLO5_VERSION], ⟨cmd, 0, 0⟩⟩,
         ⟨.log log_level_t.INFO "FPU Control Word before fninit: 0x%04x\n" [.uint (c.fnstcw w12)], ⟨cmd, 0, 0⟩⟩,
         ⟨.log log_level_t.INFO "FPU Control Word after fninit: 0x%04x\n" [.uint (c.fnstcw (c.fninit w13))], ⟨cmd, 0, 0⟩⟩,
         ⟨.mem_init, ⟨cmd, 0, 0⟩⟩,
         ⟨.time_init arg, ⟨cmd, 0, 0⟩⟩,
         ⟨.block_init arg, ⟨cmd, 0, 0⟩⟩,
         ⟨.net_init arg, ⟨cmd, 0, 0⟩⟩,
         ⟨.mem_lock_heap, ⟨cmd, 0, 0⟩⟩,
         ⟨.solo5_app_main, ⟨cmd, hs, hz⟩⟩] ++ tail,
          ⟨cmd, hs, hz⟩, wf⟩, r) ∧
      ((c.solo5_app_main ⟨cmd, hs, hz⟩ w19 = none ∧ tail = [] ∧ wf = w19 ∧ r = none) ∨
        ∃ (st : Int) (w20 : σ),
          c.solo5_app_main ⟨cmd, hs, hz⟩ w19 = some (st, w20) ∧
          tail = [⟨.solo5_exit st, ⟨cmd, hs, hz⟩⟩] ∧
          ((c.solo5_exit st w20 = none ∧ wf = w20 ∧ r = none) ∨
            ∃ w21 : σ, c.solo5_exit st w20 = some ((), w21) ∧ wf = w21 ∧ r = some ())) := by
  unfold _start _start_body
  rcases h1 : c.crt_init_ssp w with _ | ⟨⟨⟩, w1⟩
  · left; rw [invoke_bind_none _ _ _ _ _ _ h1]; simp
  rw [invoke_bind_some _ _ _ _ _ _ _ _ h1]
  rcases h2 : c.crt_init_tls w1 with _ | ⟨⟨⟩, w2⟩
  · left; rw [invoke_bind_none _ _ _ _ _ _ h2]; simp
  rw [invoke_bind_some _ _ _ _ _ _ _ _ h2]
  rcases h3 : c.console_init w2 with _ | ⟨⟨⟩, w3⟩
  · left; rw [invoke_bind_none _ _ _ _ _ _ h3]; simp
  rw [invoke_bind_some _ _ _ _ _ _ _ _ h3]
  rcases h4 : c.cpu_init w3 with _ | ⟨⟨⟩, w4⟩
  · left; rw [invoke_bind_none _ _ _ _ _ _ h4]; simp
  rw [invoke_bind_some _ _ _ _ _ _ _ _ h4]
  rcases h5 : c.platform_init arg w4 with _ | ⟨⟨⟩, w5⟩
  · left; rw [invoke_bind_none _ _ _ _ _ _ h5]; simp
  rw [invoke_bind_some _ _ _ _ _ _ _ _ h5]
  rcases h6 : c.platform_cmdline w5 with _ | ⟨raw, w6⟩
  · left; rw [invoke_bind_none _ _ _ _ _ _ h6]; simp
  rw [invoke_bind_some _ _ _ _ _ _ _ _ h6]
  rcases h7 : c.cmdline_parse raw w6 with _ | ⟨cmd, w7⟩
  · left; rw [invoke_bind_none _ _ _ _ _ _ h7]; simp
  rw [invoke_bind_some _ _ _ _ _ _ _ _ h7]
  simp only [get_si_bind, set_si_bind]
  rcases h8 : c.log .INFO "            |      ___|\n" [] w7 with _ | ⟨⟨⟩, w8⟩
  · left; rw [invoke_bind_none _ _ _ _ _ _ h8]; simp
  rw [invoke_bind_some _ _ _ _ _ _ _ _ h8]
  rcases h9 : c.log .INFO "  __|  _ \\  |  _ \\ __ \\\n" [] w8 with _ | ⟨⟨⟩, w9⟩
  · left; rw [invoke_bind_none _ _ _ _ _ _ h9]; simp
  rw [invoke_bind_some _ _ _ _ _ _ _ _ h9]
  rcases h10 : c.log .INFO "\\__ \\ (   | | (   |  ) |\n" [] w9 with _ | ⟨⟨⟩, w10⟩
  · left; rw [invoke_bind_none _ _ _ _ _ _ h10]; simp
  rw [invoke_bind_some _ _ _ _ _ _ _ _ h10]
  rcases h11 : c.log .INFO "____/\\___/ _|\\___/____/\n" [] w10 with _ | ⟨⟨⟩, w11⟩
  · left; rw [invoke_bind_none _ _ _ _ _ _ h11]; simp
  rw [invoke_bind_some _ _ _ _ _ _ _ _ h11]
  rcases h12 : c.log .INFO "Solo5: Bindings version %s\n" [.str c.SOLO5_VERSION] w11 with _ | ⟨⟨⟩, w12⟩
  · left; rw [invoke_bind_none _ _ _ _ _ _ h12]; simp
  rw [invoke_bind_some _ _ _ _ _ _ _ _ h12]
  simp only [asm_volatile_bind]
  rcases h13 : c.log .INFO "FPU Control Word before fninit: 0x%04x\n" [.uint (c.fnstcw w12)] w12 with _ | ⟨⟨⟩, w13⟩
  · left; rw [invoke_bind_none _ _ _ _ _ _ h13]; simp
  rw [invoke_bind_some _ _ _ _ _ _ _ _ h13]
  simp only [asm_volatile_bind]
  rcases h14 : c.log .INFO "FPU Control Word after fninit: 0x%04x\n" [.uint (c.fnstcw (c.fninit w13))] (c.fninit w13) with _ | ⟨⟨⟩, w14⟩
  · left; rw [invoke_bind_none _ _ _ _ _ _ h14]; simp
  rw [invoke_bind_some _ _ _ _ _ _ _ _ h14]
  rcases h15 : c.mem_init w14 with _ | ⟨⟨⟩, w15⟩
  · left; rw [invoke_bind_none _ _ _ _ _ _ h15]; simp
  rw [invoke_bind_some _ _ _ _ _ _ _ _ h15]
  rcases h16 : c.time_init arg w15 with _ | ⟨⟨⟩, w16⟩
  · left; rw [invoke_bind_none _ _ _ _ _ _ h16]; simp
  rw [invoke_bind_some _ _ _ _ _ _ _ _ h16]
  rcases h17 : c.block_init arg w16 with _ | ⟨⟨⟩, w17⟩
  · left; rw [invoke_bind_none _ _ _ _ _ _ h17]; simp
  rw [invoke_bind_some _ _ _ _ _ _ _ _ h17]
  rcases h18 : c.net_init arg w17 with _ | ⟨⟨⟩, w18⟩
  · left; rw [invoke_bind_none _ _ _ _ _ _ h18]; simp
  rw [invoke_bind_some _ _ _ _ _ _ _ _ h18]
  simp only [get_si_bind, set_si_bind]
  rcases h19 : c.mem_lock_heap 0 0 w18 with _ | ⟨⟨hs, hz⟩, w19⟩
  · left; rw [invoke_bind_none _ _ _ _ _ _ h19]; simp
  rw [invoke_bind_some _ _ _ _ _ _ _ _ h19]
  simp only [get_si_bind, set_si_bind]
  right
  rcases h20 : c.solo5_app_main ⟨cmd, hs, hz⟩ w19 with _ | ⟨st, w20⟩
  · refine ⟨raw, cmd, hs, hz, w1, w2, w3, w4, w5, w6, w7, w8, w9, w10, w11, w12, w13, w14, w15, w16, w17, w18, w19, w19, [], none,
      rfl, h2, h3, h4, h5, h6, h7, h8, h9, h10, h11, h12, h13, h14, h15, h16, h17, h18, h19, ?_, Or.inl ⟨h20, rfl, rfl, rfl⟩⟩
    rw [invoke_bind_none _ _ _ _ _ _ h20]
    simp
  · rw [invoke_bind_some _ _ _ _ _ _ _ _ h20]
    rcases h21 : c.solo5_exit st w20 with _ | ⟨⟨⟩, w21⟩
    · refine ⟨raw, cmd, hs, hz, w1, w2, w3, w4, w5, w6, w7, w8, w9, w10, w11, w12, w13, w14, w15, w16, w17, w18, w19, w20,
        [⟨.solo5_exit st, ⟨cmd, hs, hz⟩⟩], none,
        rfl, h2, h3, h4, h5, h6, h7, h8, h9, h10, h11, h12, h13, h14, h15, h16, h17, h18, h19, ?_,
        Or.inr ⟨st, w20, h20, rfl, Or.inl ⟨h21, rfl, rfl⟩⟩⟩
      simp [invoke, h21]
    · refine ⟨raw, cmd, hs, hz, w1, w2, w3, w4, w5, w6, w7, w8, w9, w10, w11, w12, w13, w14, w15, w16, w17, w18, w19, w21,
        [⟨.solo5_exit st, ⟨cmd, hs, hz⟩⟩], some (),
        rfl, h2, h3, h4, h5, h6, h7, h8, h9, h10, h11, h12, h13, h14, h15, h16, h17, h18, h19, ?_,
        Or.inr ⟨st, w20, h20, rfl, Or.inr ⟨w21, h21, rfl, rfl⟩⟩⟩
      simp [invoke, h21]

end Solo5
